import Mathlib

/-
Verification of the extreme-value statistics engine of `climakitae`
(`threshold_tools.py`) against its natural-language specification.

Shallow embedding conventions:
* Python floats are modelled as rationals `ℚ`; the NaN sentinel is modelled by
  `Option ℚ` (`none` = NaN).
* Python exceptions caught by the code (`ValueError`, `ZeroDivisionError`,
  `AttributeError`) are modelled by `PyErr`; a function that can raise returns
  `Except Err _`.
* The external numerical libraries (`lmoments3` fitting, `scipy` distribution
  objects, `scipy.stats.kstest`, `np.random.choice`) are modelled as oracle
  parameters: an abstract fitter, an abstract KS test, and an abstract random
  index stream.  The repository code under verification is everything the
  oracles are threaded through.
* `xarray.apply_ufunc` vectorization is modelled by mapping the per-point
  closure over a list of 1-D samples; `attrs` dictionaries are association
  lists of strings.
-/

namespace Climakitae

/-- Python exception kinds caught by the try/except blocks in
`threshold_tools.py` (`ValueError`, `ZeroDivisionError`, `AttributeError`). -/
inductive PyErr
  | valueError
  | zeroDivisionError
  | attributeError
deriving DecidableEq, Repr

/-- Exception kinds the external fitting and KS oracles can raise.  Per the
spec (§4.2, §4.3) fit failures surface as numerical `ValueError` or
`ZeroDivisionError`; both are caught by every `except (ValueError,
ZeroDivisionError)` clause in the source. -/
inductive FitErr
  | valueError
  | zeroDivisionError
deriving DecidableEq, Repr

/-- Configuration errors raised by the source before or during a computation;
each corresponds to a distinct `raise ValueError(...)` site. -/
inductive ConfigErr
  | invalidExtremesType
  | invalidDistr
  | invalidDataVariable
  | invalidDirection
  | groupbyNotImplemented
  | durationNotImplemented
  | smoothingNotImplemented
  | periodNotImplemented
deriving DecidableEq, Repr

/-- Errors that can escape an embedded function: a configuration
`ValueError`, an `UnboundLocalError` (reading `result` that was never
assigned), an uncaught numerical error propagating from an oracle, or the
`IndexError` `np.percentile` raises on an empty collection. -/
inductive Err
  | config (e : ConfigErr)
  | unboundLocal
  | fitFail (e : FitErr)
  | indexError
deriving DecidableEq, Repr

/-- Python float value: `none` models NaN. -/
abbrev PyFloat := Option ℚ

/-- Abstract fitted scipy distribution object: its `cdf` and `ppf` methods may
raise any of the caught exception kinds. -/
structure FittedDistr where
  cdf : ℚ → Except PyErr ℚ
  ppf : ℚ → Except PyErr ℚ

/-- Parameter record produced by `lmom_fit`; the source reads the fields
`c`/`loc`/`scale` (`skew` for pearson3) depending on the family. -/
structure Lmoments where
  c : ℚ
  loc : ℚ
  scale : ℚ
  skew : ℚ
deriving DecidableEq, Repr

/-- Oracle modelling `get_fitted_distr` (lmoments3 `lmom_fit` plus the scipy
frozen-distribution constructor) for a family name and a 1-D sample. -/
abbrev Fitter := String → List ℚ → Except FitErr (Lmoments × FittedDistr)

/-- Oracle modelling `scipy.stats.kstest(sample, name, args)`. -/
abbrev KsOracle := List ℚ → String → List ℚ → Except FitErr (ℚ × ℚ)

/-! ### Python `round` (banker's rounding) -/

/-- Round a rational to the nearest integer, ties to even, as Python's
built-in `round` does. -/
def roundHalfEven (q : ℚ) : ℤ :=
  if q - (⌊q⌋ : ℚ) < 1/2 then ⌊q⌋
  else if 1/2 < q - (⌊q⌋ : ℚ) then ⌊q⌋ + 1
  else if ⌊q⌋ % 2 = 0 then ⌊q⌋ else ⌊q⌋ + 1

/-- Python's `round(q, n)`: round to `n` decimal places, ties to even. -/
def pyRound (q : ℚ) (n : ℕ) : ℚ :=
  (roundHalfEven (q * 10 ^ n) : ℚ) / 10 ^ n

/-! ### Return-metric calculator (`calculate_return`) -/

/-- Attribute access `fitted_distr.ppf`: on a missing fit (`None`) Python
raises `AttributeError`. -/
def callPpf : Option FittedDistr → ℚ → Except PyErr ℚ
  | none, _ => .error .attributeError
  | some fd, x => fd.ppf x

/-- Attribute access `fitted_distr.cdf`: on a missing fit (`None`) Python
raises `AttributeError`. -/
def callCdf : Option FittedDistr → ℚ → Except PyErr ℚ
  | none, _ => .error .attributeError
  | some fd, x => fd.cdf x

/-- Embedding of `calculate_return(fitted_distr, data_variable, arg_value)`.
Each supported branch wraps its body in
`except (ValueError, ZeroDivisionError, AttributeError)`, turning any such
error into NaN; an unrecognised `data_variable` leaves `result` unassigned so
the final `return result` raises (`Err.unboundLocal`). -/
def calculate_return (fitted_distr : Option FittedDistr) (data_variable : String)
    (arg_value : ℚ) : Except Err PyFloat :=
  if data_variable = "return_value" then
    .ok (if arg_value = 0 then none
         else
           match callPpf fitted_distr (1 - 1 / arg_value) with
           | .ok rv => some (pyRound rv 5)
           | .error _ => none)
  else if data_variable = "return_prob" then
    .ok (match callCdf fitted_distr arg_value with
         | .ok c => some (1 - c)
         | .error _ => none)
  else if data_variable = "return_period" then
    .ok (match callCdf fitted_distr arg_value with
         | .ok p => if p = 1 then none else some (pyRound (-1 / (p - 1)) 3)
         | .error _ => none)
  else .error .unboundLocal

/-! ### Distribution registry (`get_lmom_distr`) -/

/-- The five `lmoments3.distr` estimator objects the registry can return. -/
inductive LmomDistr
  | gev
  | gum
  | wei
  | pe3
  | gpa
deriving DecidableEq, Repr

/-- Embedding of `get_lmom_distr(distr)`: membership check against the closed
family list, then dispatch; an unknown name raises `ValueError`. -/
def get_lmom_distr (distr : String) : Except Err LmomDistr :=
  if distr = "gev" then .ok .gev
  else if distr = "gumbel" then .ok .gum
  else if distr = "weibull" then .ok .wei
  else if distr = "pearson3" then .ok .pe3
  else if distr = "genpareto" then .ok .gpa
  else .error (.config .invalidDistr)

/-! ### Bootstrap (`bootstrap`) and confidence intervals (`conf_int`) -/

/-- Embedding of `np.random.choice(ams, size=n, replace=True)`: the abstract
random stream `rng` supplies one index per draw (taken modulo the sample
length, so every draw is a member of the sample). -/
def npChoice (rng : ℕ → ℕ) (xs : List ℚ) (n : ℕ) : List ℚ :=
  (List.range n).map (fun i => xs.getD (rng i % xs.length) 0)

/-- Embedding of `bootstrap(ams, distr, data_variable, arg_value)`: validates
the data-variable kind, resolves the family, draws a with-replacement
resample of the same size as `ams`, then per-family refits and evaluates
`calculate_return`, with `except (ValueError, ZeroDivisionError)` turning a
fit failure into NaN. -/
def bootstrap (fit : Fitter) (rng : ℕ → ℕ) (ams : List ℚ)
    (distr data_variable : String) (arg_value : ℚ) : Except Err PyFloat :=
  if ¬ (data_variable = "return_value" ∨ data_variable = "return_prob" ∨
        data_variable = "return_period") then
    .error (.config .invalidDataVariable)
  else
    match get_lmom_distr distr with
    | .error e => .error e
    | .ok _ =>
      let sample_size := ams.length
      let new_ams := npChoice rng ams sample_size
      if distr = "gev" ∨ distr = "gumbel" ∨ distr = "weibull" ∨
         distr = "pearson3" ∨ distr = "genpareto" then
        match fit distr new_ams with
        | .error _ => .ok none
        | .ok x => calculate_return (some x.2) data_variable arg_value
      else .error .unboundLocal

/-- Sequential effectful map over a list in the `Except Err` monad, mirroring
a Python `for` loop that appends one result per iteration and lets any raised
exception escape. -/
def mapE {α β : Type} (f : α → Except Err β) : List α → Except Err (List β)
  | [] => .ok []
  | a :: as =>
    match f a with
    | .error e => .error e
    | .ok b =>
      match mapE f as with
      | .error e => .error e
      | .ok bs => .ok (b :: bs)

/-- Linear interpolation step of `np.percentile` on an already sorted value
list: position `pos` in `[0, length - 1]`, lower index `⌊pos⌋`, upper index
clipped to the last element. -/
def lerpAt (vs : List ℚ) (pos : ℚ) : ℚ :=
  vs.getD (⌊pos⌋).toNat 0 +
    (pos - (⌊pos⌋ : ℚ)) *
      (vs.getD (min ((⌊pos⌋).toNat + 1) (vs.length - 1)) 0 -
       vs.getD (⌊pos⌋).toNat 0)

/-- Embedding of `np.percentile(xs, q)` with the default linear
interpolation: NaN anywhere in the input makes the result NaN (numpy checks
the last element of the partition, where NaN sorts); otherwise sort and
interpolate at `q / 100 * (n - 1)`. -/
def npPercentile (xs : List PyFloat) (q : ℚ) : PyFloat :=
  if xs.any (fun x => x.isNone) then none
  else
    some (lerpAt (List.insertionSort (· ≤ ·) (xs.filterMap id))
      (q * ((xs.length : ℚ) - 1) / 100))

/-- Embedding of `conf_int(ams, distr, data_variable, arg_value,
bootstrap_runs, lo, hi)`: run `bootstrap` exactly `bootstrap_runs` times
(replicate `i` consuming random stream `rngs i`), collect the outcomes, and
take both requested percentiles of the full collection.  `np.percentile`
raises on an empty collection (`bootstrap_runs = 0`). -/
def conf_int (fit : Fitter) (rngs : ℕ → ℕ → ℕ) (ams : List ℚ)
    (distr data_variable : String) (arg_value : ℚ) (bootstrap_runs : ℕ)
    (conf_int_lower_bound conf_int_upper_bound : ℚ) :
    Except Err (PyFloat × PyFloat) :=
  match mapE (fun i => bootstrap fit (rngs i) ams distr data_variable arg_value)
      (List.range bootstrap_runs) with
  | .error e => .error e
  | .ok bootstrap_values =>
    if bootstrap_values.isEmpty then .error .indexError
    else .ok (npPercentile bootstrap_values conf_int_lower_bound,
              npPercentile bootstrap_values conf_int_upper_bound)

/-- Single bootstrap replicate as the spec (§4.5) words it: refit the family
to the given resample and evaluate the return-metric calculator on the refit,
with NaN on fit failure.  Used to state that `bootstrap`/`conf_int` refine
this description. -/
def bootstrapOnce (fit : Fitter) (resample : List ℚ) (distr data_variable : String)
    (arg_value : ℚ) : PyFloat :=
  match fit distr resample with
  | .error _ => none
  | .ok x =>
    match calculate_return (some x.2) data_variable arg_value with
    | .ok r => r
    | .error _ => none

/-- The outcome collection `conf_int` takes its percentiles over: replicate
`i` evaluates the metric on the with-replacement resample drawn by random
stream `rngs i`. -/
def bootOutcomes (fit : Fitter) (rngs : ℕ → ℕ → ℕ) (ams : List ℚ)
    (distr data_variable : String) (arg_value : ℚ) (runs : ℕ) : List PyFloat :=
  (List.range runs).map
    (fun i => bootstrapOnce fit (npChoice (rngs i) ams ams.length)
      distr data_variable arg_value)

/-! ### Goodness-of-fit tester (`ks_stat` inside `get_ks_stat`) -/

/-- Embedding of the per-point closure `ks_stat(ams)` of `get_ks_stat`: one
branch per family, each fitting via `get_fitted_distr` and calling
`stats.kstest` with the family's scipy name and fitted parameter tuple, with
`except (ValueError, ZeroDivisionError)` mapping any failure to
`(NaN, NaN)`.  An unmatched family name leaves the statistics unassigned. -/
def ks_stat (fit : Fitter) (ks : KsOracle) (distr : String) (ams : List ℚ) :
    Except Err (PyFloat × PyFloat) :=
  if distr = "gev" then
    .ok (match fit distr ams with
         | .error _ => (none, none)
         | .ok x =>
           match ks ams "genextreme" [x.1.c, x.1.loc, x.1.scale] with
           | .error _ => (none, none)
           | .ok dp => (some dp.1, some dp.2))
  else if distr = "gumbel" then
    .ok (match fit distr ams with
         | .error _ => (none, none)
         | .ok x =>
           match ks ams "gumbel_r" [x.1.loc, x.1.scale] with
           | .error _ => (none, none)
           | .ok dp => (some dp.1, some dp.2))
  else if distr = "weibull" then
    .ok (match fit distr ams with
         | .error _ => (none, none)
         | .ok x =>
           match ks ams "weibull_min" [x.1.c, x.1.loc, x.1.scale] with
           | .error _ => (none, none)
           | .ok dp => (some dp.1, some dp.2))
  else if distr = "pearson3" then
    .ok (match fit distr ams with
         | .error _ => (none, none)
         | .ok x =>
           match ks ams "pearson3" [x.1.skew, x.1.loc, x.1.scale] with
           | .error _ => (none, none)
           | .ok dp => (some dp.1, some dp.2))
  else if distr = "genpareto" then
    .ok (match fit distr ams with
         | .error _ => (none, none)
         | .ok x =>
           match ks ams "genpareto" [x.1.c, x.1.loc, x.1.scale] with
           | .error _ => (none, none)
           | .ok dp => (some dp.1, some dp.2))
  else .error .unboundLocal

/-- Scipy distribution name passed to `stats.kstest` for each family. -/
def scipyName (distr : String) : String :=
  if distr = "gev" then "genextreme"
  else if distr = "gumbel" then "gumbel_r"
  else if distr = "weibull" then "weibull_min"
  else if distr = "pearson3" then "pearson3"
  else if distr = "genpareto" then "genpareto"
  else ""

/-- Fitted parameter tuple passed to `stats.kstest` for each family:
`(loc, scale)` for gumbel, `(skew, loc, scale)` for pearson3, and
`(c, loc, scale)` for the shape families. -/
def ksArgs (distr : String) (lm : Lmoments) : List ℚ :=
  if distr = "gumbel" then [lm.loc, lm.scale]
  else if distr = "pearson3" then [lm.skew, lm.loc, lm.scale]
  else [lm.c, lm.loc, lm.scale]

/-! ### Vectorized dataset producers and their metadata handling -/

/-- Vectorized input: one 1-D time slice per spatial/ensemble point, plus the
whole-series `attrs` metadata dictionary. -/
structure DataArray where
  pts : List (List ℚ)
  attrs : List (String × String)

/-- Python dict assignment `m[k] = v`: overwrite the first entry for the key
in place if present (insertion order is preserved), otherwise append a new
entry. -/
def dictSet : List (String × String) → String → String → List (String × String)
  | [], k, v => [(k, v)]
  | p :: m, k, v => if p.1 = k then (k, v) :: m else p :: dictSet m k v

/-- Output of `get_lmoments`: per-point fitted parameter records plus dataset
metadata. -/
structure LmomentsDS where
  lmoments : List Lmoments
  attrs : List (String × String)

/-- Embedding of `get_lmoments(ams, distr)`: resolve the family, apply
`lmom_fit` at every point (no try/except here: a fit failure propagates), then
install the carried-over metadata and the `"distribution"` key. -/
def get_lmoments (fit : Fitter) (da : DataArray) (distr : String) :
    Except Err LmomentsDS :=
  match get_lmom_distr distr with
  | .error e => .error e
  | .ok _ =>
    let ams_attributes := da.attrs
    match mapE (fun pt =>
        match fit distr pt with
        | .error e => .error (.fitFail e)
        | .ok x => .ok x.1) da.pts with
    | .error e => .error e
    | .ok lms =>
      .ok { lmoments := lms
            attrs := dictSet ams_attributes "distribution" distr }

/-- Output of `get_ks_stat`: per-point D-statistics and p-values, their
variable-level attrs, and dataset metadata. -/
structure KsDS where
  d_statistic : List PyFloat
  p_value : List PyFloat
  varAttrs : List (String × String)
  attrs : List (String × String)

/-- Embedding of `get_ks_stat(ams, distr)`: resolve the family, run the
per-point KS closure everywhere, tag the statistic variables, then install
carried-over metadata and the `"distribution"` key. -/
def get_ks_stat (fit : Fitter) (ks : KsOracle) (da : DataArray)
    (distr : String) : Except Err KsDS :=
  match get_lmom_distr distr with
  | .error e => .error e
  | .ok _ =>
    let ams_attributes := da.attrs
    match mapE (fun pt => ks_stat fit ks distr pt) da.pts with
    | .error e => .error e
    | .ok pairs =>
      .ok { d_statistic := pairs.map (fun dp => dp.1)
            p_value := pairs.map (fun dp => dp.2)
            varAttrs := [("stat test", "KS test")]
            attrs := dictSet ams_attributes "distribution" distr }

/-- Per-point closure shared in shape by `get_return_value`,
`get_return_prob` and `get_return_period`: fit and evaluate the metric with
`except (ValueError, ZeroDivisionError)` mapping fit failure to NaN, then
compute the bootstrap confidence interval for the same point. -/
def metric_point (fit : Fitter) (rngs : ℕ → ℕ → ℕ) (distr data_variable : String)
    (arg_value : ℚ) (runs : ℕ) (lo hi : ℚ) (pt : List ℚ) :
    Except Err (PyFloat × PyFloat × PyFloat) :=
  if distr = "gev" ∨ distr = "gumbel" ∨ distr = "weibull" ∨
     distr = "pearson3" ∨ distr = "genpareto" then
    match (match fit distr pt with
           | .error _ => Except.ok none
           | .ok x => calculate_return (some x.2) data_variable arg_value) with
    | .error e => .error e
    | .ok rv =>
      match conf_int fit rngs pt distr data_variable arg_value runs lo hi with
      | .error e => .error e
      | .ok lu => .ok (rv, lu.1, lu.2)
  else .error .unboundLocal

/-- Output of the three return-metric dataset functions: per-point metric
values, confidence bounds, variable-level attrs, and dataset metadata. -/
structure ReturnDS where
  value : List PyFloat
  conf_int_lower_limit : List PyFloat
  conf_int_upper_limit : List PyFloat
  varAttrs : List (String × String)
  attrs : List (String × String)

/-- Embedding of `get_return_value(ams, return_period, distr, ...)`. -/
def get_return_value (fit : Fitter) (rngs2 : ℕ → ℕ → ℕ → ℕ) (da : DataArray)
    (return_period : ℚ) (distr : String) (bootstrap_runs : ℕ) (lo hi : ℚ) :
    Except Err ReturnDS :=
  match get_lmom_distr distr with
  | .error e => .error e
  | .ok _ =>
    let ams_attributes := da.attrs
    match mapE (fun p : ℕ × List ℚ =>
        metric_point fit (rngs2 p.1) distr "return_value" return_period
          bootstrap_runs lo hi p.2) da.pts.enum with
    | .error e => .error e
    | .ok triples =>
      .ok { value := triples.map (fun t => t.1)
            conf_int_lower_limit := triples.map (fun t => t.2.1)
            conf_int_upper_limit := triples.map (fun t => t.2.2)
            varAttrs := [("return period",
              "1 in " ++ toString return_period ++ " year event")]
            attrs := dictSet ams_attributes "distribution" distr }

/-- Embedding of `get_return_prob(ams, threshold, distr, ...)`. -/
def get_return_prob (fit : Fitter) (rngs2 : ℕ → ℕ → ℕ → ℕ) (da : DataArray)
    (threshold : ℚ) (distr : String) (bootstrap_runs : ℕ) (lo hi : ℚ) :
    Except Err ReturnDS :=
  match get_lmom_distr distr with
  | .error e => .error e
  | .ok _ =>
    let ams_attributes := da.attrs
    match mapE (fun p : ℕ × List ℚ =>
        metric_point fit (rngs2 p.1) distr "return_prob" threshold
          bootstrap_runs lo hi p.2) da.pts.enum with
    | .error e => .error e
    | .ok triples =>
      .ok { value := triples.map (fun t => t.1)
            conf_int_lower_limit := triples.map (fun t => t.2.1)
            conf_int_upper_limit := triples.map (fun t => t.2.2)
            varAttrs := [("threshold",
              "exceedance of " ++ toString threshold ++ " value event")]
            attrs := dictSet ams_attributes "distribution" distr }

/-- Embedding of `get_return_period(ams, return_value, distr, ...)`. -/
def get_return_period (fit : Fitter) (rngs2 : ℕ → ℕ → ℕ → ℕ) (da : DataArray)
    (return_value : ℚ) (distr : String) (bootstrap_runs : ℕ) (lo hi : ℚ) :
    Except Err ReturnDS :=
  match get_lmom_distr distr with
  | .error e => .error e
  | .ok _ =>
    let ams_attributes := da.attrs
    match mapE (fun p : ℕ × List ℚ =>
        metric_point fit (rngs2 p.1) distr "return_period" return_value
          bootstrap_runs lo hi p.2) da.pts.enum with
    | .error e => .error e
    | .ok triples =>
      .ok { value := triples.map (fun t => t.1)
            conf_int_lower_limit := triples.map (fun t => t.2.1)
            conf_int_upper_limit := triples.map (fun t => t.2.2)
            varAttrs := [("return value",
              "occurrence of a " ++ toString return_value ++ " value event")]
            attrs := dictSet ams_attributes "distribution" distr }

/-! ### Exceedance engine (`get_ams`, `get_exceedance_events`,
`get_exceedance_count`)

To settle where a configuration error is raised relative to the data passes,
these embeddings also return a trace: one entry per elementwise pass the
source makes over the input array, in execution order. -/

/-- Timestamp of one entry of an hourly series: its calendar year and an
absolute day number (the `time.date` group key). -/
structure Tm where
  year : ℕ
  date : ℕ
deriving DecidableEq, Repr

/-- Input time series: one timestamped value per entry. -/
abbrev TimedSeries := List (Tm × ℚ)

/-- Boolean event series aligned with the input. -/
abbrev FlagSeries := List (Tm × Bool)

/-- Distinct group keys in ascending order, as `xarray.groupby` produces. -/
def sortedDedup (l : List ℕ) : List ℕ :=
  List.insertionSort (· ≤ ·) l.dedup

/-- Grouping `events_da.groupby("time.date").sum() > 0`: one flag per
calendar day, true if any sub-daily entry that day was true. -/
def groupByDate (events : FlagSeries) : FlagSeries :=
  (sortedDedup (events.map (fun e => e.1.date))).map
    (fun d =>
      (⟨((events.find? (fun e => e.1.date == d)).map (fun e => e.1.year)).getD 0, d⟩,
       decide (0 < (events.filter (fun e => e.1.date == d)).countP (fun e => e.2))))

/-- Grouping `events_da.groupby("time.year").sum()`: per calendar year, the
number of true flags. -/
def groupSumYear (events : FlagSeries) : List (ℕ × ℕ) :=
  (sortedDedup (events.map (fun e => e.1.year))).map
    (fun y => (y, (events.filter (fun e => e.1.year == y)).countP (fun e => e.2)))

/-- Embedding of `get_ams(da, extremes_type)`: anything but `"max"` raises
before the resample pass; otherwise one pass computes the per-year block
maxima. -/
def get_ams (da : TimedSeries) (extremes_type : String) :
    List String × Except Err (List (ℕ × ℚ)) :=
  if extremes_type ≠ "max" then
    ([], .error (.config .invalidExtremesType))
  else
    (["resample_year_max"],
     .ok ((sortedDedup (da.map (fun e => e.1.year))).map
       (fun y => (y, (((da.filter (fun e => e.1.year == y)).map
         (fun e => e.2)).max?).getD 0))))

/-- Embedding of `get_exceedance_events(da, threshold_value,
threshold_direction, groupby)`: the direction dispatch performs the
threshold-comparison pass over the data (or raises on an unknown direction
without touching it); the optional `groupby` post-processing then either
performs the per-day grouping pass (`"1day"`) or raises — after the
comparison pass has already happened. -/
def get_exceedance_events (da : TimedSeries) (threshold_value : ℚ)
    (threshold_direction : String) (groupby : Option String) :
    List String × Except Err FlagSeries :=
  let step1 : List String × Except Err FlagSeries :=
    if threshold_direction = "above" then
      (["compare_threshold"],
       .ok (da.map (fun e => (e.1, decide (threshold_value < e.2)))))
    else if threshold_direction = "below" then
      (["compare_threshold"],
       .ok (da.map (fun e => (e.1, decide (e.2 < threshold_value)))))
    else ([], .error (.config .invalidDirection))
  match step1 with
  | (tr, .error e) => (tr, .error e)
  | (tr, .ok events_da) =>
    match groupby with
    | none => (tr, .ok events_da)
    | some g =>
      if g = "1day" then
        (tr ++ ["groupby_date_sum"], .ok (groupByDate events_da))
      else (tr, .error (.config .groupbyNotImplemented))

/-- Embedding of `get_exceedance_count(da, threshold_value, period_length,
threshold_direction, duration, groupby, smoothing)`: non-default `duration`
and `smoothing` raise up front; then the exceedance-events stage runs; only
then is `period_length` examined, raising on anything but `"1year"` —
after the flagging pass over the data. -/
def get_exceedance_count (da : TimedSeries) (threshold_value : ℚ)
    (period_length threshold_direction : String) (duration : Option String)
    (groupby : Option String) (smoothing : Option String) :
    List String × Except Err (List (ℕ × ℕ)) :=
  if duration.isSome then ([], .error (.config .durationNotImplemented))
  else if smoothing.isSome then ([], .error (.config .smoothingNotImplemented))
  else
    match get_exceedance_events da threshold_value threshold_direction groupby with
    | (tr, .error e) => (tr, .error e)
    | (tr, .ok events_da) =>
      if period_length = "1year" then
        (tr ++ ["groupby_year_sum"], .ok (groupSumYear events_da))
      else (tr, .error (.config .periodNotImplemented))

/-! ### Concrete objects used to instantiate theorems on closed inputs -/

/-- Degenerate fitted distribution whose CDF and PPF are the identity. -/
def idDistr : FittedDistr :=
  { cdf := fun x => .ok x, ppf := fun x => .ok x }

/-- Fitter oracle that always succeeds with fixed parameters and `idDistr`. -/
def fit0 : Fitter := fun _ _ => .ok (⟨0, 0, 1, 0⟩, idDistr)

/-- KS oracle that always reports statistic 0 and p-value 1. -/
def ks0 : KsOracle := fun _ _ _ => .ok (0, 1)

/-- Constant random index stream. -/
def rng0 : ℕ → ℕ := fun _ => 0

/-- Constant per-replicate random index streams. -/
def rngs0 : ℕ → ℕ → ℕ := fun _ _ => 0

/-- Constant per-point per-replicate random index streams. -/
def rngs20 : ℕ → ℕ → ℕ → ℕ := fun _ _ _ => 0

/-- A 3-calendar-year series with 5 above-threshold-5 entries in 2001, none
in 2002 and 12 in 2003, plus below-threshold entries in each year. -/
def exampleSeries : TimedSeries :=
  [(⟨2001, 1⟩, 10), (⟨2001, 1⟩, 9), (⟨2001, 2⟩, 8), (⟨2001, 2⟩, 7),
   (⟨2001, 3⟩, 6), (⟨2001, 3⟩, 0), (⟨2001, 4⟩, 1),
   (⟨2002, 400⟩, 2), (⟨2002, 401⟩, 3), (⟨2002, 402⟩, 0),
   (⟨2003, 800⟩, 6), (⟨2003, 800⟩, 6), (⟨2003, 801⟩, 6), (⟨2003, 801⟩, 6),
   (⟨2003, 802⟩, 6), (⟨2003, 802⟩, 6), (⟨2003, 803⟩, 6), (⟨2003, 803⟩, 6),
   (⟨2003, 804⟩, 6), (⟨2003, 804⟩, 6), (⟨2003, 805⟩, 6), (⟨2003, 805⟩, 6),
   (⟨2003, 806⟩, 4)]

/-- Single-point vectorized input with one metadata entry, used to
instantiate the dataset-level theorems. -/
def da0 : DataArray :=
  { pts := [[1, 2, 3]], attrs := [("units", "degC")] }

/-! ### Association-list lemmas for Python dict assignment -/

lemma lookup_cons_self (a b : String) (m : List (String × String)) :
    List.lookup a ((a, b) :: m) = some b := by
  simp [List.lookup]

lemma lookup_cons_ne {k' a : String} (b : String) (m : List (String × String))
    (h : ¬k' = a) : List.lookup k' ((a, b) :: m) = List.lookup k' m := by
  have hb : (k' == a) = false := beq_eq_false_iff_ne.mpr h
  simp [List.lookup, hb]

/-- Key lookup after Python dict assignment: the assigned key reads back the
new value, every other key is unchanged. -/
lemma dictSet_lookup (m : List (String × String)) (k v k' : String) :
    (dictSet m k v).lookup k' = (if k' = k then some v else m.lookup k') := by
  induction m with
  | nil =>
    by_cases h : k' = k
    · subst h
      simp [dictSet, lookup_cons_self]
    · simp [dictSet, lookup_cons_ne _ _ h, h]
  | cons p m ih =>
    obtain ⟨a, b⟩ := p
    by_cases hp : a = k
    · subst hp
      rw [show dictSet ((a, b) :: m) a v = (a, v) :: m from by simp [dictSet]]
      by_cases h : k' = a
      · subst h
        simp [lookup_cons_self]
      · simp [lookup_cons_ne _ _ h, h]
    · rw [show dictSet ((a, b) :: m) k v = (a, b) :: dictSet m k v from by
        simp [dictSet, hp]]
      by_cases h2 : k' = a
      · subst h2
        have hk : ¬k' = k := fun hh => hp (hh ▸ rfl)
        simp [lookup_cons_self, hk]
      · rw [lookup_cons_ne _ _ h2, lookup_cons_ne _ _ h2, ih]

/-! ### Attrs characterizations of the five fit-derived dataset functions -/

lemma get_lmoments_attrs (fit : Fitter) (da : DataArray) (distr : String)
    (ds : LmomentsDS) (h : get_lmoments fit da distr = .ok ds) :
    ds.attrs = dictSet da.attrs "distribution" distr := by
  unfold get_lmoments at h
  split at h
  · exact absurd h (by simp)
  · split at h
    · exact absurd h (by simp)
    · simp only [Except.ok.injEq] at h
      subst h
      rfl

lemma get_ks_stat_attrs (fit : Fitter) (ks : KsOracle) (da : DataArray)
    (distr : String) (ds : KsDS) (h : get_ks_stat fit ks da distr = .ok ds) :
    ds.attrs = dictSet da.attrs "distribution" distr := by
  unfold get_ks_stat at h
  split at h
  · exact absurd h (by simp)
  · split at h
    · exact absurd h (by simp)
    · simp only [Except.ok.injEq] at h
      subst h
      rfl

lemma get_return_value_attrs (fit : Fitter) (rngs2 : ℕ → ℕ → ℕ → ℕ)
    (da : DataArray) (T : ℚ) (distr : String) (runs : ℕ) (lo hi : ℚ)
    (ds : ReturnDS) (h : get_return_value fit rngs2 da T distr runs lo hi = .ok ds) :
    ds.attrs = dictSet da.attrs "distribution" distr := by
  unfold get_return_value at h
  split at h
  · exact absurd h (by simp)
  · split at h
    · exact absurd h (by simp)
    · simp only [Except.ok.injEq] at h
      subst h
      rfl

lemma get_return_prob_attrs (fit : Fitter) (rngs2 : ℕ → ℕ → ℕ → ℕ)
    (da : DataArray) (th : ℚ) (distr : String) (runs : ℕ) (lo hi : ℚ)
    (ds : ReturnDS) (h : get_return_prob fit rngs2 da th distr runs lo hi = .ok ds) :
    ds.attrs = dictSet da.attrs "distribution" distr := by
  unfold get_return_prob at h
  split at h
  · exact absurd h (by simp)
  · split at h
    · exact absurd h (by simp)
    · simp only [Except.ok.injEq] at h
      subst h
      rfl

lemma get_return_period_attrs (fit : Fitter) (rngs2 : ℕ → ℕ → ℕ → ℕ)
    (da : DataArray) (rv : ℚ) (distr : String) (runs : ℕ) (lo hi : ℚ)
    (ds : ReturnDS) (h : get_return_period fit rngs2 da rv distr runs lo hi = .ok ds) :
    ds.attrs = dictSet da.attrs "distribution" distr := by
  unfold get_return_period at h
  split at h
  · exact absurd h (by simp)
  · split at h
    · exact absurd h (by simp)
    · simp only [Except.ok.injEq] at h
      subst h
      rfl

/-! ### Claim theorems -/

/-- C1: for a fitted distribution, `calculate_return` computes
`round(PPF(1 - 1/T), 5)` for kind `return_value` with argument `T`,
`1 - CDF(m)` unrounded for kind `return_prob` with argument `m`, and for
kind `return_period` NaN when `CDF(m) = 1` exactly and
`round(-1 / (CDF(m) - 1), 3)` otherwise. -/
theorem calculate_return_compute (fd : FittedDistr) (T m rv p : ℚ)
    (hT : T ≠ 0) (hppf : fd.ppf (1 - 1 / T) = .ok rv)
    (hcdf : fd.cdf m = .ok p) :
    calculate_return (some fd) "return_value" T = .ok (some (pyRound rv 5)) ∧
    calculate_return (some fd) "return_prob" m = .ok (some (1 - p)) ∧
    calculate_return (some fd) "return_period" m =
      .ok (if p = 1 then none else some (pyRound (-1 / (p - 1)) 3)) := by
  have hppf' : fd.ppf (1 - T⁻¹) = .ok rv := by rwa [one_div] at hppf
  refine ⟨?_, ?_, ?_⟩ <;>
    simp [calculate_return, callPpf, callCdf, hT, hppf', hcdf]

/-- C1 witness: the three formulas evaluated on a concrete distribution. -/
theorem calculate_return_compute_witness :
    (2 : ℚ) ≠ 0 ∧
    calculate_return (some idDistr) "return_value" 2 =
      .ok (some (pyRound (1 - 1/2) 5)) ∧
    calculate_return (some idDistr) "return_prob" (1/2) = .ok (some (1 - 1/2)) ∧
    calculate_return (some idDistr) "return_period" (1/2) =
      .ok (if (1/2 : ℚ) = 1 then none else some (pyRound (-1 / (1/2 - 1)) 3)) := by
  refine ⟨by norm_num, ?_⟩
  exact calculate_return_compute idDistr 2 (1/2) (1 - 1/2) (1/2)
    (by norm_num) rfl rfl

/-- C2: for the three supported metric kinds `calculate_return` fails softly:
it always returns a value (never raises); a `ValueError`,
`ZeroDivisionError` or `AttributeError` (missing fit) from the underlying
computation — including division by zero when the return period argument is
zero — yields NaN; and for kind `return_period` with a successfully computed
non-exceedance probability `p`, the result is NaN exactly when `p = 1`. -/
theorem calculate_return_soft (fd? : Option FittedDistr) (dv : String) (av : ℚ)
    (hv : dv = "return_value" ∨ dv = "return_prob" ∨ dv = "return_period") :
    (∃ r, calculate_return fd? dv av = .ok r) ∧
    (dv = "return_value" → (av = 0 ∨ ∃ e, callPpf fd? (1 - 1 / av) = .error e) →
      calculate_return fd? dv av = .ok none) ∧
    ((dv = "return_prob" ∨ dv = "return_period") →
      (∃ e, callCdf fd? av = .error e) → calculate_return fd? dv av = .ok none) ∧
    (∀ p, dv = "return_period" → callCdf fd? av = .ok p →
      (calculate_return fd? dv av = .ok none ↔ p = 1)) := by
  rcases hv with h | h | h <;> subst h
  · refine ⟨⟨_, rfl⟩, ?_, ?_, ?_⟩
    · rintro - (hav | ⟨e, he⟩)
      · simp [calculate_return, hav]
      · rw [one_div] at he
        by_cases hav : av = 0 <;> simp [calculate_return, hav, he]
    · rintro (h | h) <;> simp at h
    · intro p h
      simp at h
  · refine ⟨⟨_, rfl⟩, ?_, ?_, ?_⟩
    · intro h
      simp at h
    · rintro - ⟨e, he⟩
      simp [calculate_return, he]
    · intro p h
      simp at h
  · refine ⟨⟨_, rfl⟩, ?_, ?_, ?_⟩
    · intro h
      simp at h
    · rintro - ⟨e, he⟩
      simp [calculate_return, he]
    · rintro p - hp
      by_cases hp1 : p = 1 <;> simp [calculate_return, hp, hp1]

/-- C2 witness: on a missing fit (`None`), `return_period` returns NaN. -/
theorem calculate_return_soft_witness :
    ∃ r, calculate_return none "return_period" 0 = .ok r := by
  exact (calculate_return_soft none "return_period" 0 (by simp)).1

/-- C10: for a metric-kind string outside the three supported kinds,
`calculate_return` raises (its `result` variable is never assigned) rather
than returning NaN, while `bootstrap` validates the kind up front and raises
its configuration error before calling `calculate_return`. -/
theorem calculate_return_unknown (fd? : Option FittedDistr) (dv : String)
    (av : ℚ)
    (hv : ¬(dv = "return_value" ∨ dv = "return_prob" ∨ dv = "return_period")) :
    calculate_return fd? dv av = .error .unboundLocal ∧
    ∀ (fit : Fitter) (rng : ℕ → ℕ) (ams : List ℚ) (distr : String),
      bootstrap fit rng ams distr dv av = .error (.config .invalidDataVariable) := by
  push_neg at hv
  obtain ⟨h1, h2, h3⟩ := hv
  refine ⟨by simp [calculate_return, h1, h2, h3], ?_⟩
  intro fit rng ams distr
  simp [bootstrap, h1, h2, h3]

/-- C10 witness: the unknown kind `"return_quantile"` raises in
`calculate_return` and is rejected by `bootstrap`'s validation. -/
theorem calculate_return_unknown_witness :
    calculate_return none "return_quantile" 0 = .error .unboundLocal ∧
    bootstrap fit0 rng0 [] "gev" "return_quantile" 0 =
      .error (.config .invalidDataVariable) := by
  have h := calculate_return_unknown none "return_quantile" 0 (by simp)
  exact ⟨h.1, h.2 fit0 rng0 [] "gev"⟩

/-- C9: for every supported family, the per-point KS closure returns
`(NaN, NaN)` when fitting fails or when the KS computation raises a numerical
error, and otherwise the D-statistic and p-value of the fitted distribution
against the sample. -/
theorem ks_stat_soft (fit : Fitter) (ks : KsOracle) (distr : String)
    (ams : List ℚ)
    (hd : distr = "gev" ∨ distr = "gumbel" ∨ distr = "weibull" ∨
          distr = "pearson3" ∨ distr = "genpareto") :
    ((∃ e, fit distr ams = .error e) →
      ks_stat fit ks distr ams = .ok (none, none)) ∧
    (∀ lm fd, fit distr ams = .ok (lm, fd) →
      ((∃ e, ks ams (scipyName distr) (ksArgs distr lm) = .error e) →
        ks_stat fit ks distr ams = .ok (none, none)) ∧
      (∀ d p, ks ams (scipyName distr) (ksArgs distr lm) = .ok (d, p) →
        ks_stat fit ks distr ams = .ok (some d, some p))) := by
  rcases hd with h | h | h | h | h <;> subst h <;>
    refine ⟨fun ⟨e, he⟩ => by simp [ks_stat, he], fun lm fd hfit => ⟨?_, ?_⟩⟩
  all_goals
    first
    | (rintro ⟨e, he⟩; simp [scipyName, ksArgs] at he; simp [ks_stat, hfit, he])
    | (intro d p hks; simp [scipyName, ksArgs] at hks; simp [ks_stat, hfit, hks])

/-- C9 witness: a successful fit and KS run reports the oracle's statistic
and p-value. -/
theorem ks_stat_soft_witness :
    ks_stat fit0 ks0 "gev" [1] = .ok (some 0, some 1) := by
  exact ((ks_stat_soft fit0 ks0 "gev" [1] (by simp)).2 ⟨0, 0, 1, 0⟩ idDistr
    rfl).2 0 1 rfl

/-- C3 counterexample: `get_exceedance_count` with `period_length="1month"`
does raise its configuration error, but only after the threshold-comparison
pass over the data — the trace of data passes is non-empty when the error is
raised, refuting "before any computation on the data begins". -/
theorem exceedance_period_error_after_touch :
    (get_exceedance_count [(⟨2001, 1⟩, 1)] 0 "1month" "above" none none
        none).2 = .error (.config .periodNotImplemented) ∧
    (get_exceedance_count [(⟨2001, 1⟩, 1)] 0 "1month" "above" none none
        none).1 = ["compare_threshold"] ∧
    (get_exceedance_count [(⟨2001, 1⟩, 1)] 0 "1month" "above" none none
        none).1 ≠ [] := by
  refine ⟨rfl, rfl, by decide⟩

/-- C3 amended: an unknown distribution name, an invalid extremes-extraction
kind, an invalid threshold direction, and a non-default duration or smoothing
option each raise their distinguishable configuration error before any pass
over the data (empty trace); an unimplemented `period_length` or `groupby`
option also raises a distinguishable configuration error, but only after the
threshold-flagging pass over the data has run. -/
theorem config_errors_amended :
    (∀ d : String, d ≠ "gev" → d ≠ "gumbel" → d ≠ "weibull" → d ≠ "pearson3" →
      d ≠ "genpareto" → get_lmom_distr d = .error (.config .invalidDistr)) ∧
    (∀ (da : TimedSeries) (k : String), k ≠ "max" →
      get_ams da k = ([], .error (.config .invalidExtremesType))) ∧
    (∀ (da : TimedSeries) (th : ℚ) (dir : String) (gb : Option String),
      dir ≠ "above" → dir ≠ "below" →
      get_exceedance_events da th dir gb =
        ([], .error (.config .invalidDirection))) ∧
    (∀ (da : TimedSeries) (th : ℚ) (pl dir : String)
      (du gb sm : Option String), du.isSome →
      get_exceedance_count da th pl dir du gb sm =
        ([], .error (.config .durationNotImplemented))) ∧
    (∀ (da : TimedSeries) (th : ℚ) (pl dir : String) (gb sm : Option String),
      sm.isSome →
      get_exceedance_count da th pl dir none gb sm =
        ([], .error (.config .smoothingNotImplemented))) ∧
    (∀ (da : TimedSeries) (th : ℚ) (pl : String), pl ≠ "1year" →
      get_exceedance_count da th pl "above" none none none =
        (["compare_threshold"], .error (.config .periodNotImplemented))) ∧
    (∀ (da : TimedSeries) (th : ℚ) (g : String), g ≠ "1day" →
      get_exceedance_events da th "above" (some g) =
        (["compare_threshold"], .error (.config .groupbyNotImplemented))) := by
  refine ⟨?_, ?_, ?_, ?_, ?_, ?_, ?_⟩
  · intro d h1 h2 h3 h4 h5
    simp [get_lmom_distr, h1, h2, h3, h4, h5]
  · intro da k hk
    simp [get_ams, hk]
  · intro da th dir gb h1 h2
    simp [get_exceedance_events, h1, h2]
  · intro da th pl dir du gb sm hdu
    simp [get_exceedance_count, hdu]
  · intro da th pl dir gb sm hsm
    simp [get_exceedance_count, hsm]
  · intro da th pl hpl
    simp [get_exceedance_count, get_exceedance_events, hpl]
  · intro da th g hg
    simp [get_exceedance_events, hg]

/-- C3 amended witness: the concrete unsupported configurations from the spec
each produce their distinguishable error, with the period error arriving
after one data pass. -/
theorem config_errors_amended_witness :
    get_lmom_distr "normal" = .error (.config .invalidDistr) ∧
    get_exceedance_count [(⟨2001, 1⟩, 1)] 0 "1month" "above" none none none =
      (["compare_threshold"], .error (.config .periodNotImplemented)) ∧
    get_exceedance_events [(⟨2001, 1⟩, 1)] 0 "above" (some "1week") =
      (["compare_threshold"], .error (.config .groupbyNotImplemented)) := by
  refine ⟨config_errors_amended.1 "normal" (by simp) (by simp) (by simp)
    (by simp) (by simp), ?_, ?_⟩
  · exact (config_errors_amended.2.2.2.2.2.1) [(⟨2001, 1⟩, 1)] 0 "1month"
      (by simp)
  · exact (config_errors_amended.2.2.2.2.2.2) [(⟨2001, 1⟩, 1)] 0 "1week"
      (by simp)

/-- C5: with `period_length="1year"` and `threshold_direction="above"`,
`get_exceedance_count` flags exactly the entries strictly greater than the
threshold and returns, per calendar year in ascending order, the count of
flagged entries; in particular a 3-year series with 5, 0 and 12
above-threshold values yields counts 5, 0 and 12. -/
theorem exceedance_count_year_spec :
    (∀ (da : TimedSeries) (th : ℚ),
      get_exceedance_count da th "1year" "above" none none none =
        (["compare_threshold", "groupby_year_sum"],
         .ok ((sortedDedup (da.map (fun e => e.1.year))).map
           (fun y => (y, (da.filter (fun e => e.1.year == y)).countP
             (fun e => decide (th < e.2))))))) ∧
    get_exceedance_count exampleSeries 5 "1year" "above" none none none =
      (["compare_threshold", "groupby_year_sum"],
       .ok [(2001, 5), (2002, 0), (2003, 12)]) := by
  constructor
  · intro da th
    simp [get_exceedance_count, get_exceedance_events, groupSumYear,
      List.map_map, Function.comp_def, List.filter_map, List.countP_map]
  · rfl

/-- C7: every dataset derived from a fit — the L-moments dataset, the KS-test
dataset, and the return value/probability/period datasets — carries forward
the input series' metadata mapping unchanged (every key other than
`"distribution"` reads back the input's value) and records the chosen family
name under the key `"distribution"`. -/
theorem fit_datasets_attrs (fit : Fitter) (ks : KsOracle)
    (rngs2 : ℕ → ℕ → ℕ → ℕ) (da : DataArray) (distr : String)
    (T th rv lo hi : ℚ) (runs : ℕ) :
    (∀ ds, get_lmoments fit da distr = .ok ds →
      ds.attrs.lookup "distribution" = some distr ∧
      ∀ k, k ≠ "distribution" → ds.attrs.lookup k = da.attrs.lookup k) ∧
    (∀ ds, get_ks_stat fit ks da distr = .ok ds →
      ds.attrs.lookup "distribution" = some distr ∧
      ∀ k, k ≠ "distribution" → ds.attrs.lookup k = da.attrs.lookup k) ∧
    (∀ ds, get_return_value fit rngs2 da T distr runs lo hi = .ok ds →
      ds.attrs.lookup "distribution" = some distr ∧
      ∀ k, k ≠ "distribution" → ds.attrs.lookup k = da.attrs.lookup k) ∧
    (∀ ds, get_return_prob fit rngs2 da th distr runs lo hi = .ok ds →
      ds.attrs.lookup "distribution" = some distr ∧
      ∀ k, k ≠ "distribution" → ds.attrs.lookup k = da.attrs.lookup k) ∧
    (∀ ds, get_return_period fit rngs2 da rv distr runs lo hi = .ok ds →
      ds.attrs.lookup "distribution" = some distr ∧
      ∀ k, k ≠ "distribution" → ds.attrs.lookup k = da.attrs.lookup k) := by
  refine ⟨fun ds h => ?_, fun ds h => ?_, fun ds h => ?_, fun ds h => ?_,
    fun ds h => ?_⟩
  · rw [get_lmoments_attrs fit da distr ds h]
    exact ⟨by simp [dictSet_lookup], fun k hk => by simp [dictSet_lookup, hk]⟩
  · rw [get_ks_stat_attrs fit ks da distr ds h]
    exact ⟨by simp [dictSet_lookup], fun k hk => by simp [dictSet_lookup, hk]⟩
  · rw [get_return_value_attrs fit rngs2 da T distr runs lo hi ds h]
    exact ⟨by simp [dictSet_lookup], fun k hk => by simp [dictSet_lookup, hk]⟩
  · rw [get_return_prob_attrs fit rngs2 da th distr runs lo hi ds h]
    exact ⟨by simp [dictSet_lookup], fun k hk => by simp [dictSet_lookup, hk]⟩
  · rw [get_return_period_attrs fit rngs2 da rv distr runs lo hi ds h]
    exact ⟨by simp [dictSet_lookup], fun k hk => by simp [dictSet_lookup, hk]⟩

/-- C7 witness: on a concrete one-point series with a `units` attribute, all
five fit-derived datasets keep `units` and record `distribution = gev`. -/
theorem fit_datasets_attrs_witness :
    (∃ ds, get_lmoments fit0 da0 "gev" = .ok ds ∧
      ds.attrs.lookup "distribution" = some "gev" ∧
      ds.attrs.lookup "units" = da0.attrs.lookup "units") ∧
    (∃ ds, get_ks_stat fit0 ks0 da0 "gev" = .ok ds ∧
      ds.attrs.lookup "distribution" = some "gev" ∧
      ds.attrs.lookup "units" = da0.attrs.lookup "units") ∧
    (∃ ds, get_return_value fit0 rngs20 da0 10 "gev" 1 (5/2) (195/2) = .ok ds ∧
      ds.attrs.lookup "distribution" = some "gev" ∧
      ds.attrs.lookup "units" = da0.attrs.lookup "units") ∧
    (∃ ds, get_return_prob fit0 rngs20 da0 1 "gev" 1 (5/2) (195/2) = .ok ds ∧
      ds.attrs.lookup "distribution" = some "gev" ∧
      ds.attrs.lookup "units" = da0.attrs.lookup "units") ∧
    (∃ ds, get_return_period fit0 rngs20 da0 1 "gev" 1 (5/2) (195/2) = .ok ds ∧
      ds.attrs.lookup "distribution" = some "gev" ∧
      ds.attrs.lookup "units" = da0.attrs.lookup "units") := by
  have h := fit_datasets_attrs fit0 ks0 rngs20 da0 "gev" 10 1 1 (5/2) (195/2) 1
  refine ⟨⟨_, rfl, ?_⟩, ⟨_, rfl, ?_⟩, ⟨_, rfl, ?_⟩, ⟨_, rfl, ?_⟩, ⟨_, rfl, ?_⟩⟩
  · exact ⟨(h.1 _ rfl).1, (h.1 _ rfl).2 "units" (by simp)⟩
  · exact ⟨(h.2.1 _ rfl).1, (h.2.1 _ rfl).2 "units" (by simp)⟩
  · exact ⟨(h.2.2.1 _ rfl).1, (h.2.2.1 _ rfl).2 "units" (by simp)⟩
  · exact ⟨(h.2.2.2.1 _ rfl).1, (h.2.2.2.1 _ rfl).2 "units" (by simp)⟩
  · exact ⟨(h.2.2.2.2 _ rfl).1, (h.2.2.2.2 _ rfl).2 "units" (by simp)⟩

/-! ### Helper lemmas for the bootstrap / confidence-interval claims -/

lemma calculate_return_isOk (fd? : Option FittedDistr) (dv : String) (av : ℚ)
    (hv : dv = "return_value" ∨ dv = "return_prob" ∨ dv = "return_period") :
    ∃ r, calculate_return fd? dv av = .ok r := by
  rcases hv with h | h | h <;> subst h <;> exact ⟨_, rfl⟩

/-- With a valid family and metric kind, one `bootstrap` call is exactly one
spec-level `bootstrapOnce` on the drawn resample (and never raises). -/
lemma bootstrap_eq (fit : Fitter) (rng : ℕ → ℕ) (ams : List ℚ)
    (distr dv : String) (av : ℚ)
    (hd : distr = "gev" ∨ distr = "gumbel" ∨ distr = "weibull" ∨
          distr = "pearson3" ∨ distr = "genpareto")
    (hv : dv = "return_value" ∨ dv = "return_prob" ∨ dv = "return_period") :
    bootstrap fit rng ams distr dv av =
      .ok (bootstrapOnce fit (npChoice rng ams ams.length) distr dv av) := by
  obtain ⟨ld, hld⟩ : ∃ ld, get_lmom_distr distr = .ok ld := by
    rcases hd with h | h | h | h | h <;> subst h <;> exact ⟨_, rfl⟩
  cases hf : fit distr (npChoice rng ams ams.length) with
  | error e =>
    unfold bootstrap bootstrapOnce
    rw [if_neg (not_not_intro hv), hld]
    simp only [hf, if_pos hd]
  | ok x =>
    obtain ⟨r, hr⟩ := calculate_return_isOk (some x.2) dv av hv
    unfold bootstrap bootstrapOnce
    rw [if_neg (not_not_intro hv), hld]
    simp only [hf, if_pos hd, hr]

lemma mapE_ok {α β : Type} (f : α → Except Err β) (g : α → β) (l : List α)
    (h : ∀ a ∈ l, f a = .ok (g a)) : mapE f l = .ok (l.map g) := by
  induction l with
  | nil => rfl
  | cons a as ih =>
    rw [List.map_cons]
    unfold mapE
    rw [h a (by simp), ih (fun x hx => h x (by simp [hx]))]

/-- With a valid family, metric kind and at least one run, `conf_int` returns
the two requested percentiles of the full outcome collection. -/
lemma conf_int_eq (fit : Fitter) (rngs : ℕ → ℕ → ℕ) (ams : List ℚ)
    (distr dv : String) (av : ℚ) (runs : ℕ) (lo hi : ℚ)
    (hd : distr = "gev" ∨ distr = "gumbel" ∨ distr = "weibull" ∨
          distr = "pearson3" ∨ distr = "genpareto")
    (hv : dv = "return_value" ∨ dv = "return_prob" ∨ dv = "return_period")
    (hr : 1 ≤ runs) :
    conf_int fit rngs ams distr dv av runs lo hi =
      .ok (npPercentile (bootOutcomes fit rngs ams distr dv av runs) lo,
           npPercentile (bootOutcomes fit rngs ams distr dv av runs) hi) := by
  unfold conf_int bootOutcomes
  rw [mapE_ok _ _ _ (fun i _ => bootstrap_eq fit (rngs i) ams distr dv av hd hv)]
  have hne : ((List.range runs).map
      (fun i => bootstrapOnce fit (npChoice (rngs i) ams ams.length)
        distr dv av)).isEmpty = false := by
    rw [List.isEmpty_eq_false]
    simp only [ne_eq, List.map_eq_nil_iff, List.range_eq_nil]
    omega
  simp [hne]

lemma filterMap_id_length (xs : List PyFloat) (h : ∀ x ∈ xs, x ≠ none) :
    (xs.filterMap id).length = xs.length := by
  induction xs with
  | nil => rfl
  | cons x xs ih =>
    cases x with
    | none => exact absurd rfl (h none (by simp))
    | some v =>
      simp only [List.filterMap_cons, id, List.length_cons]
      rw [ih (fun y hy => h y (by simp [hy]))]

lemma sorted_getD_mono (vs : List ℚ) (hs : List.Sorted (· ≤ ·) vs) {a b : ℕ}
    (hab : a ≤ b) (hb : b < vs.length) : vs.getD a 0 ≤ vs.getD b 0 := by
  have ha : a < vs.length := lt_of_le_of_lt hab hb
  rcases lt_or_eq_of_le hab with h | h
  · rw [List.getD_eq_getElem vs 0 ha, List.getD_eq_getElem vs 0 hb]
    exact List.pairwise_iff_get.mp hs ⟨a, ha⟩ ⟨b, hb⟩ h
  · subst h
    exact le_refl _

/-- The `np.percentile` interpolation step is monotone in the position, over
a sorted nonempty value list. -/
lemma lerpAt_mono (vs : List ℚ) (hs : List.Sorted (· ≤ ·) vs) (hn : vs ≠ [])
    {pos pos' : ℚ} (h0 : 0 ≤ pos) (h12 : pos ≤ pos')
    (hub : pos' ≤ (vs.length : ℚ) - 1) :
    lerpAt vs pos ≤ lerpAt vs pos' := by
  have hlen : 1 ≤ vs.length := List.length_pos.mpr hn
  have h0' : 0 ≤ pos' := le_trans h0 h12
  have hf0 : (0 : ℤ) ≤ ⌊pos⌋ := Int.floor_nonneg.mpr h0
  have hf0' : (0 : ℤ) ≤ ⌊pos'⌋ := Int.floor_nonneg.mpr h0'
  have hfle : ⌊pos⌋ ≤ ⌊pos'⌋ := Int.floor_le_floor h12
  have hfub : ⌊pos'⌋ ≤ (vs.length : ℤ) - 1 := by
    have h1 : ⌊pos'⌋ ≤ ⌊((vs.length : ℚ) - 1)⌋ := Int.floor_le_floor hub
    have h2 : ((vs.length : ℚ) - 1) = (((vs.length : ℤ) - 1 : ℤ) : ℚ) := by
      push_cast
      ring
    rw [h2, Int.floor_intCast] at h1
    exact h1
  have hii' : (⌊pos⌋).toNat ≤ (⌊pos'⌋).toNat := by omega
  have hi'lt : (⌊pos'⌋).toNat < vs.length := by omega
  have hilt : (⌊pos⌋).toNat < vs.length := by omega
  have ht0 : 0 ≤ pos - (⌊pos⌋ : ℚ) := by
    have := Int.floor_le pos
    linarith
  have ht1 : pos - (⌊pos⌋ : ℚ) < 1 := by
    have := Int.lt_floor_add_one pos
    linarith
  have ht0' : 0 ≤ pos' - (⌊pos'⌋ : ℚ) := by
    have := Int.floor_le pos'
    linarith
  have hgij : vs.getD (⌊pos⌋).toNat 0 ≤
      vs.getD (min ((⌊pos⌋).toNat + 1) (vs.length - 1)) 0 :=
    sorted_getD_mono vs hs (by omega) (by omega)
  have hgi'j' : vs.getD (⌊pos'⌋).toNat 0 ≤
      vs.getD (min ((⌊pos'⌋).toNat + 1) (vs.length - 1)) 0 :=
    sorted_getD_mono vs hs (by omega) (by omega)
  unfold lerpAt
  rcases eq_or_lt_of_le hii' with heq | hlt
  · have hfloors : ⌊pos⌋ = ⌊pos'⌋ := by omega
    rw [← heq, ← hfloors]
    have hmul : (pos - (⌊pos⌋ : ℚ)) *
        (vs.getD (min ((⌊pos⌋).toNat + 1) (vs.length - 1)) 0 -
         vs.getD (⌊pos⌋).toNat 0) ≤
        (pos' - (⌊pos⌋ : ℚ)) *
        (vs.getD (min ((⌊pos⌋).toNat + 1) (vs.length - 1)) 0 -
         vs.getD (⌊pos⌋).toNat 0) :=
      mul_le_mul_of_nonneg_right (by linarith) (by linarith)
    linarith
  · have hgj_i' : vs.getD (min ((⌊pos⌋).toNat + 1) (vs.length - 1)) 0 ≤
        vs.getD (⌊pos'⌋).toNat 0 :=
      sorted_getD_mono vs hs (by omega) hi'lt
    have upper : vs.getD (⌊pos⌋).toNat 0 +
        (pos - (⌊pos⌋ : ℚ)) *
        (vs.getD (min ((⌊pos⌋).toNat + 1) (vs.length - 1)) 0 -
         vs.getD (⌊pos⌋).toNat 0) ≤
        vs.getD (min ((⌊pos⌋).toNat + 1) (vs.length - 1)) 0 := by
      have := mul_le_mul_of_nonneg_right (le_of_lt ht1)
        (sub_nonneg.mpr hgij)
      linarith
    have lower : vs.getD (⌊pos'⌋).toNat 0 ≤ vs.getD (⌊pos'⌋).toNat 0 +
        (pos' - (⌊pos'⌋ : ℚ)) *
        (vs.getD (min ((⌊pos'⌋).toNat + 1) (vs.length - 1)) 0 -
         vs.getD (⌊pos'⌋).toNat 0) := by
      have := mul_nonneg ht0' (sub_nonneg.mpr hgi'j')
      linarith
    linarith

/-- Over a NaN-free nonempty collection, `np.percentile` returns values and
they are ordered along the requested percentiles. -/
lemma npPercentile_some_le (xs : List PyFloat) (hne : xs ≠ [])
    (hnn : ∀ x ∈ xs, x ≠ none) {p q : ℚ} (hp0 : 0 ≤ p) (hpq : p ≤ q)
    (hq : q ≤ 100) :
    ∃ l u, npPercentile xs p = some l ∧ npPercentile xs q = some u ∧ l ≤ u := by
  have hany : xs.any (fun x => x.isNone) = false := by
    rw [List.any_eq_false]
    intro x hx
    cases x with
    | none => exact absurd rfl (hnn none hx)
    | some v => simp
  unfold npPercentile
  rw [hany]
  simp only [Bool.false_eq_true, if_false]
  refine ⟨_, _, rfl, rfl, ?_⟩
  have hsorted : (List.insertionSort (· ≤ ·) (xs.filterMap id)).Sorted (· ≤ ·) :=
    List.sorted_insertionSort _ _
  have hlvs : (List.insertionSort (· ≤ ·) (xs.filterMap id)).length = xs.length := by
    rw [List.length_insertionSort, filterMap_id_length xs hnn]
  have hxl : 1 ≤ xs.length := List.length_pos.mpr hne
  have hL : (1 : ℚ) ≤ (xs.length : ℚ) := by exact_mod_cast hxl
  have hvne : List.insertionSort (· ≤ ·) (xs.filterMap id) ≠ [] := by
    rw [← List.length_pos, hlvs]
    omega
  apply lerpAt_mono _ hsorted hvne
  · apply div_nonneg _ (by norm_num)
    exact mul_nonneg hp0 (by linarith)
  · gcongr
    linarith
  · rw [hlvs, div_le_iff₀ (by norm_num : (0:ℚ) < 100)]
    nlinarith

/-- A NaN anywhere in the collection makes `np.percentile` return NaN, at
any requested percentile — failed replicates are not filtered out. -/
lemma npPercentile_of_mem_none (xs : List PyFloat) (q : ℚ) (h : none ∈ xs) :
    npPercentile xs q = none := by
  unfold npPercentile
  have hany : xs.any (fun x => x.isNone) = true :=
    List.any_eq_true.mpr ⟨none, h, rfl⟩
  rw [hany]
  simp

/-- A concrete two-element sample. -/
def ams0 : List ℚ := [1, 2]

/-- C4: `conf_int` performs exactly `runs` bootstrap evaluations — each one
drawing a with-replacement resample of the same size as the sample, refitting
and evaluating the return metric with NaN on fit failure (`bootstrapOnce`) —
and returns the requested lower/upper percentiles over the full outcome
collection, including any NaNs, without filtering failed replicates. -/
theorem conf_int_bootstrap_spec (fit : Fitter) (rngs : ℕ → ℕ → ℕ)
    (ams : List ℚ) (distr dv : String) (av lo hi : ℚ) (runs : ℕ)
    (hd : distr = "gev" ∨ distr = "gumbel" ∨ distr = "weibull" ∨
          distr = "pearson3" ∨ distr = "genpareto")
    (hv : dv = "return_value" ∨ dv = "return_prob" ∨ dv = "return_period")
    (hr : 1 ≤ runs) :
    (bootOutcomes fit rngs ams distr dv av runs).length = runs ∧
    (∀ i, i < runs →
      (npChoice (rngs i) ams ams.length).length = ams.length ∧
      bootstrap fit (rngs i) ams distr dv av =
        .ok (bootstrapOnce fit (npChoice (rngs i) ams ams.length)
          distr dv av)) ∧
    conf_int fit rngs ams distr dv av runs lo hi =
      .ok (npPercentile (bootOutcomes fit rngs ams distr dv av runs) lo,
           npPercentile (bootOutcomes fit rngs ams distr dv av runs) hi) ∧
    (∀ (xs : List PyFloat) (q : ℚ), none ∈ xs → npPercentile xs q = none) := by
  refine ⟨?_, ?_, conf_int_eq fit rngs ams distr dv av runs lo hi hd hv hr,
    npPercentile_of_mem_none⟩
  · simp [bootOutcomes]
  · intro i _
    exact ⟨by simp [npChoice], bootstrap_eq fit (rngs i) ams distr dv av hd hv⟩

/-- C4 witness: the characterization instantiated on a concrete sample,
family, kind and one run. -/
theorem conf_int_bootstrap_spec_witness :
    (bootOutcomes fit0 rngs0 ams0 "gev" "return_prob" 0 1).length = 1 ∧
    (∀ i, i < 1 →
      (npChoice (rngs0 i) ams0 ams0.length).length = ams0.length ∧
      bootstrap fit0 (rngs0 i) ams0 "gev" "return_prob" 0 =
        .ok (bootstrapOnce fit0 (npChoice (rngs0 i) ams0 ams0.length)
          "gev" "return_prob" 0)) ∧
    conf_int fit0 rngs0 ams0 "gev" "return_prob" 0 1 (5/2) (195/2) =
      .ok (npPercentile (bootOutcomes fit0 rngs0 ams0 "gev" "return_prob" 0 1)
             (5/2),
           npPercentile (bootOutcomes fit0 rngs0 ams0 "gev" "return_prob" 0 1)
             (195/2)) ∧
    (∀ (xs : List PyFloat) (q : ℚ), none ∈ xs → npPercentile xs q = none) := by
  exact conf_int_bootstrap_spec fit0 rngs0 ams0 "gev" "return_prob" 0 (5/2)
    (195/2) 1 (by simp) (by simp) (by norm_num)

/-- C6: with 2.5/97.5 percentile bounds, `conf_int` returns an ordered pair
`lower ≤ upper` whenever no bootstrap replicate failed, and both bounds are
the NaN sentinel when fitting fails in a replicate. -/
theorem conf_int_bounds_ordered (fit : Fitter) (rngs : ℕ → ℕ → ℕ)
    (ams : List ℚ) (distr dv : String) (av : ℚ) (runs : ℕ)
    (hd : distr = "gev" ∨ distr = "gumbel" ∨ distr = "weibull" ∨
          distr = "pearson3" ∨ distr = "genpareto")
    (hv : dv = "return_value" ∨ dv = "return_prob" ∨ dv = "return_period")
    (hr : 1 ≤ runs) :
    ((∀ x ∈ bootOutcomes fit rngs ams distr dv av runs, x ≠ none) →
      ∃ l u, conf_int fit rngs ams distr dv av runs (5/2) (195/2) =
        .ok (some l, some u) ∧ l ≤ u) ∧
    ((∃ i, i < runs ∧
        ∃ e, fit distr (npChoice (rngs i) ams ams.length) = .error e) →
      conf_int fit rngs ams distr dv av runs (5/2) (195/2) =
        .ok (none, none)) := by
  have hk := conf_int_eq fit rngs ams distr dv av runs (5/2) (195/2) hd hv hr
  constructor
  · intro hnn
    have hlen : (bootOutcomes fit rngs ams distr dv av runs).length = runs := by
      simp [bootOutcomes]
    have hne : bootOutcomes fit rngs ams distr dv av runs ≠ [] := by
      rw [← List.length_pos, hlen]
      omega
    obtain ⟨l, u, hl, hu, hlu⟩ := npPercentile_some_le _ hne hnn
      (by norm_num : (0:ℚ) ≤ 5/2) (by norm_num : (5:ℚ)/2 ≤ 195/2) (by norm_num)
    exact ⟨l, u, by rw [hk, hl, hu], hlu⟩
  · rintro ⟨i, hi, e, he⟩
    have hout : bootstrapOnce fit (npChoice (rngs i) ams ams.length)
        distr dv av = none := by
      unfold bootstrapOnce
      rw [he]
    have hmem : none ∈ bootOutcomes fit rngs ams distr dv av runs := by
      unfold bootOutcomes
      exact List.mem_map.mpr ⟨i, List.mem_range.mpr hi, hout⟩
    rw [hk, npPercentile_of_mem_none _ _ hmem, npPercentile_of_mem_none _ _ hmem]

/-- C6 witness: a run with no failed replicate yields ordered bounds. -/
theorem conf_int_bounds_ordered_witness :
    ∃ l u, conf_int fit0 rngs0 ams0 "gev" "return_prob" 0 1 (5/2) (195/2) =
      .ok (some l, some u) ∧ l ≤ u := by
  exact (conf_int_bounds_ordered fit0 rngs0 ams0 "gev" "return_prob" 0 1
    (by simp) (by simp) (by norm_num)).1 (by decide)

/-! ### Rounding error bounds -/

lemma roundHalfEven_abs_le (q : ℚ) : |(roundHalfEven q : ℚ) - q| ≤ 1/2 := by
  unfold roundHalfEven
  have h0 : (⌊q⌋ : ℚ) ≤ q := Int.floor_le q
  have h1 : q < (⌊q⌋ : ℚ) + 1 := Int.lt_floor_add_one q
  by_cases hlt : q - (⌊q⌋ : ℚ) < 1/2
  · rw [if_pos hlt, abs_le]
    constructor <;> linarith
  · rw [if_neg hlt]
    by_cases hgt : 1/2 < q - (⌊q⌋ : ℚ)
    · rw [if_pos hgt]
      push_cast
      rw [abs_le]
      constructor <;> linarith
    · rw [if_neg hgt]
      have heq : q - (⌊q⌋ : ℚ) = 1/2 :=
        le_antisymm (not_lt.mp hgt) (not_lt.mp hlt)
      by_cases hev : ⌊q⌋ % 2 = 0
      · rw [if_pos hev, abs_le]
        constructor <;> linarith
      · rw [if_neg hev]
        push_cast
        rw [abs_le]
        constructor <;> linarith

lemma pyRound_abs_le (x : ℚ) (n : ℕ) :
    |pyRound x n - x| ≤ 1 / (2 * 10 ^ n) := by
  unfold pyRound
  have hpow : (0:ℚ) < 10 ^ n := by positivity
  have key : (roundHalfEven (x * 10 ^ n) : ℚ) / 10 ^ n - x =
      ((roundHalfEven (x * 10 ^ n) : ℚ) - x * 10 ^ n) / 10 ^ n := by
    field_simp
    ring
  rw [key, abs_div, abs_of_pos hpow]
  have h := roundHalfEven_abs_le (x * 10 ^ n)
  calc |(roundHalfEven (x * 10 ^ n) : ℚ) - x * 10 ^ n| / 10 ^ n
      ≤ (1/2) / 10 ^ n := by gcongr
    _ = 1 / (2 * 10 ^ n) := by rw [div_div]

/-- C8: computing the return value for a period `T ∈ {2, 10, 50, 100}` and
feeding it back through the return-period computation recovers `T` within
numerical tolerance: if the distribution's CDF at the rounded return value is
within `δ` of the exact non-exceedance probability `1 - 1/T` (with
`T·δ ≤ 1/2`), the recovered period is within `2·T²·δ + 1/2000` of `T`. -/
theorem return_value_period_inverse (fd : FittedDistr) (T rv q δ : ℚ)
    (hT : T = 2 ∨ T = 10 ∨ T = 50 ∨ T = 100)
    (hppf : fd.ppf (1 - 1 / T) = .ok rv)
    (hcdf : fd.cdf (pyRound rv 5) = .ok q)
    (hacc : |q - (1 - 1 / T)| ≤ δ)
    (hδ : 0 ≤ δ) (hsmall : T * δ ≤ 1 / 2) :
    calculate_return (some fd) "return_value" T = .ok (some (pyRound rv 5)) ∧
    ∃ per, calculate_return (some fd) "return_period" (pyRound rv 5) =
      .ok (some per) ∧ |per - T| ≤ 2 * T ^ 2 * δ + 1 / 2000 := by
  have hT2 : 2 ≤ T := by rcases hT with h | h | h | h <;> subst h <;> norm_num
  have hTpos : (0:ℚ) < T := by linarith
  have hT0 : T ≠ 0 := ne_of_gt hTpos
  have hδle : δ ≤ 1 / (2 * T) := by
    rw [le_div_iff₀ (by positivity)]
    nlinarith
  have habs := abs_le.mp hacc
  have h2 : (1:ℚ) / (2 * T) = 1 / T - 1 / (2 * T) := by
    field_simp
    ring
  have h1q_lb : 1 / (2 * T) ≤ 1 - q := by
    have hfrac : 1 / T - δ ≤ 1 - q := by linarith [habs.2]
    linarith
  have h1q_pos : (0:ℚ) < 1 - q :=
    lt_of_lt_of_le (by positivity) h1q_lb
  have hqne1 : q ≠ 1 := by
    intro hq1
    rw [hq1] at h1q_pos
    simp at h1q_pos
  have hc1 : calculate_return (some fd) "return_value" T =
      .ok (some (pyRound rv 5)) := by
    have hppf' : fd.ppf (1 - T⁻¹) = .ok rv := by rwa [one_div] at hppf
    simp [calculate_return, callPpf, hT0, hppf']
  refine ⟨hc1, pyRound (-1 / (q - 1)) 3, ?_, ?_⟩
  · simp [calculate_return, callCdf, hcdf, hqne1]
  · have hq1ne : q - 1 ≠ 0 := by
      intro hz
      exact hqne1 (by linarith [sub_eq_zero.mp hz])
    have hrw : (-1 : ℚ) / (q - 1) = 1 / (1 - q) := by
      field_simp
    have hmain : |(-1 : ℚ) / (q - 1) - T| ≤ 2 * T ^ 2 * δ := by
      rw [hrw]
      have hkey : 1 / (1 - q) - T = (1 - T * (1 - q)) / (1 - q) := by
        field_simp
        ring
      rw [hkey, abs_div, abs_of_pos h1q_pos]
      have hnum : |1 - T * (1 - q)| = T * |q - (1 - 1 / T)| := by
        have hx : 1 - T * (1 - q) = T * (q - (1 - 1 / T)) := by
          field_simp
          ring
        rw [hx, abs_mul, abs_of_pos hTpos]
      rw [hnum, div_le_iff₀ h1q_pos]
      have h3 : T * |q - (1 - 1 / T)| ≤ T * δ :=
        mul_le_mul_of_nonneg_left hacc (le_of_lt hTpos)
      have h2T2δ : (0:ℚ) ≤ 2 * T ^ 2 * δ := by nlinarith [sq_nonneg T]
      have h4 : 2 * T ^ 2 * δ * (1 / (2 * T)) ≤ 2 * T ^ 2 * δ * (1 - q) :=
        mul_le_mul_of_nonneg_left h1q_lb h2T2δ
      have h5 : 2 * T ^ 2 * δ * (1 / (2 * T)) = T * δ := by
        field_simp
        ring
      linarith
    have hround := pyRound_abs_le ((-1 : ℚ) / (q - 1)) 3
    have hh : (1:ℚ) / (2 * 10 ^ 3) = 1 / 2000 := by norm_num
    rw [hh] at hround
    calc |pyRound ((-1 : ℚ) / (q - 1)) 3 - T|
        ≤ |pyRound ((-1 : ℚ) / (q - 1)) 3 - (-1 : ℚ) / (q - 1)| +
          |(-1 : ℚ) / (q - 1) - T| :=
          abs_sub_le _ _ _
      _ ≤ 1 / 2000 + 2 * T ^ 2 * δ := add_le_add hround hmain
      _ = 2 * T ^ 2 * δ + 1 / 2000 := by ring

/-- C8 witness: the identity-CDF distribution at `T = 2` with exact CDF
(`δ = 0`) recovers the period within `1/2000`. -/
theorem return_value_period_inverse_witness :
    calculate_return (some idDistr) "return_value" 2 =
      .ok (some (pyRound (1 - 1/2) 5)) ∧
    ∃ per, calculate_return (some idDistr) "return_period"
      (pyRound (1 - 1/2) 5) = .ok (some per) ∧
      |per - 2| ≤ 2 * 2 ^ 2 * 0 + 1 / 2000 := by
  exact return_value_period_inverse idDistr 2 (1 - 1/2) (pyRound (1 - 1/2) 5) 0
    (Or.inl rfl) rfl rfl (by norm_num [pyRound, roundHalfEven]) le_rfl (by norm_num)

end Climakitae
